import Mathlib

/-!
Shallow embedding of the web2pdf repository (Rust) in Lean 4, together with
theorems settling the frozen claims about its specification.

Embedded code:
  * `src/web2pdf_lib/src/util.rs` — `parse_cookie_file` and its error type;
  * `src/web2pdf_lib/src/lib.rs`  — the pure option rewriting performed by
    `web2pdf_save_pdf_mono` (lines 202-234);
  * `src/src/main.rs` — `Cli::replace_url_path_pairs`, the print-option
    construction inside `pdf_tab`, and the fan-out/join failure counting of
    `main`.

Conventions: Rust `f64` values are modelled as `ℚ` (every constant involved
in the claims is an exact decimal, and the formulas use only +, / by 96 and
comparisons); `Result<T, E>` becomes `Except`; the per-task concurrency of
`main` is modelled by an arbitrary completion order (a permutation of the
task outcomes) feeding the mutex-guarded exit counter.
-/

/-! ## Rust string primitives used by the parser -/

/-- Model of Rust `str::starts_with` on characters:
`charsStart haystack needle` is true when `needle` is a leading run of
`haystack`. -/
def charsStart : List Char → List Char → Bool
  | _, [] => true
  | [], _ :: _ => false
  | c :: cs, d :: ds => c = d && charsStart cs ds

/-- Model of Rust `str::starts_with`. -/
def strStartsWith (s p : String) : Bool := charsStart s.data p.data

/-- Model of Rust `&line[10..]` (all byte slices in the source cut after the
ASCII marker `#HttpOnly_`, where byte index 10 is character index 10). -/
def strDrop (s : String) (n : Nat) : String := String.mk (s.data.drop n)

/-- Accumulator loop for `rustLines`: splits at `\n`, stripping one `\r`
before a `\n`. -/
def linesAux : List Char → List Char → List String
  | [], [] => []
  | [], cur => [String.mk cur.reverse]
  | '\n' :: rest, cur =>
      (match cur with
        | '\r' :: cur2 => String.mk cur2.reverse
        | _ => String.mk cur.reverse) :: linesAux rest []
  | c :: rest, cur => linesAux rest (c :: cur)

/-- Model of Rust `str::lines`: split at `\n` (also consuming a preceding
`\r`), without a trailing empty line for input ending in `\n`. -/
def rustLines (s : String) : List String := linesAux s.data []

/-- Accumulator loop for `splitTab`. -/
def splitTabAux : List Char → List Char → List String
  | [], cur => [String.mk cur.reverse]
  | '\t' :: rest, cur => String.mk cur.reverse :: splitTabAux rest []
  | c :: rest, cur => splitTabAux rest (c :: cur)

/-- Model of Rust `line.split('\t').collect::<Vec<&str>>()`: the empty string
yields `[""]`, and every `\t` separates two (possibly empty) fields. -/
def splitTab (s : String) : List String := splitTabAux s.data []

/-! ## Model of Rust `str::parse::<f64>()`

`core`'s `FromStr` for `f64` accepts, after an optional sign, either a
case-insensitive `inf`, `infinity` or `nan`, or a decimal number
`Digit+ | Digit+ '.' Digit* | Digit* '.' Digit+` with an optional exponent
`('e'|'E') Sign? Digit+`. The numeric value is modelled exactly in `ℚ`;
`ℚ` has no non-finite values, so `inf`, `infinity` and `nan` are mapped to
`0` (they still parse successfully, and no claim inspects such an expiry). -/

/-- Value of a digit run, most significant first. -/
def digitsToNat (ds : List Char) : Nat :=
  ds.foldl (fun n c => 10 * n + (c.toNat - '0'.toNat)) 0

/-- The normalized rational `n / d`, constructed through `Nat.gcd` and
`Nat.div` so that its fields are kernel-reducible (`Rat.mul`, `Rat.div` and
`mkRat` are compiler-implemented and opaque to `decide`). -/
def qMake (n : Int) (d : Nat) : ℚ :=
  if hd : d = 0 then 0
  else
    let na := n.natAbs
    let g := na.gcd d
    have hg : 0 < g := Nat.gcd_pos_of_pos_right na (Nat.pos_of_ne_zero hd)
    have hco : Nat.Coprime (na / g) (d / g) := Nat.coprime_div_gcd_div_gcd hg
    have hden : d / g ≠ 0 :=
      Nat.pos_iff_ne_zero.mp
        (Nat.div_pos (Nat.le_of_dvd (Nat.pos_of_ne_zero hd) (Nat.gcd_dvd_right na d)) hg)
    if n < 0 then ⟨-((na / g : Nat) : Int), d / g, hden, by simpa using hco⟩
    else ⟨((na / g : Nat) : Int), d / g, hden, by simpa using hco⟩

/-- The exact value `(i + f / 10 ^ k) * 10 ^ e` of a decimal literal with
integer part `i`, fraction digits of value `f` and count `k`, and exponent
`e`, as an unnormalized numerator/denominator pair. -/
def scaleParts (i f k : Nat) (e : Int) : Int × Nat :=
  match e with
  | .ofNat m => (((i * 10 ^ k + f) * 10 ^ m : Nat), 10 ^ k)
  | .negSucc m => ((i * 10 ^ k + f : Nat), 10 ^ k * 10 ^ (m + 1))

/-- The optional exponent suffix: `[]` means exponent 0; otherwise
`('e'|'E') Sign? Digit+` must consume the whole remainder. -/
def parseExpSuffix : List Char → Option Int
  | [] => some 0
  | c :: rest =>
    if c = 'e' ∨ c = 'E' then
      match rest with
      | '+' :: ds =>
          if ds.isEmpty then none
          else if ds.all Char.isDigit then some (digitsToNat ds : Int) else none
      | '-' :: ds =>
          if ds.isEmpty then none
          else if ds.all Char.isDigit then some (-(digitsToNat ds : Int)) else none
      | ds =>
          if ds.isEmpty then none
          else if ds.all Char.isDigit then some (digitsToNat ds : Int) else none
    else none

/-- A decimal significand with optional exponent (the non-`inf`/`nan` arm of
Rust's float grammar), as a numerator/denominator pair. -/
def parseDecimal (cs : List Char) : Option (Int × Nat) :=
  let ipart := cs.takeWhile Char.isDigit
  let rest := cs.dropWhile Char.isDigit
  match rest with
  | '.' :: rest2 =>
    let fpart := rest2.takeWhile Char.isDigit
    let rest3 := rest2.dropWhile Char.isDigit
    if ipart.isEmpty && fpart.isEmpty then none
    else
      match parseExpSuffix rest3 with
      | none => none
      | some e => some (scaleParts (digitsToNat ipart) (digitsToNat fpart) fpart.length e)
  | _ =>
    if ipart.isEmpty then none
    else
      match parseExpSuffix rest with
      | none => none
      | some e => some (scaleParts (digitsToNat ipart) 0 0 e)

/-- The body of the float literal after the optional sign. -/
def parseF64core (cs : List Char) : Option (Int × Nat) :=
  let low := cs.map Char.toLower
  if low = ['i', 'n', 'f'] ∨ low = ['i', 'n', 'f', 'i', 'n', 'i', 't', 'y'] ∨
      low = ['n', 'a', 'n'] then
    some (0, 1)
  else parseDecimal cs

/-- Model of Rust `str::parse::<f64>()`: `none` exactly when Rust returns a
`ParseFloatError` (whose display text is the fixed string
`invalid float literal`). -/
def parseF64 (s : String) : Option ℚ :=
  match s.data with
  | '+' :: rest => (parseF64core rest).map (fun p => qMake p.1 p.2)
  | '-' :: rest => (parseF64core rest).map (fun p => qMake (-p.1) p.2)
  | _ => (parseF64core s.data).map (fun p => qMake p.1 p.2)

/-- Decidable equality for `Except`, so concrete parser runs can be settled
by `decide`. -/
instance {ε α : Type} [DecidableEq ε] [DecidableEq α] : DecidableEq (Except ε α) := fun x y =>
  match x, y with
  | .ok a, .ok b => if h : a = b then .isTrue (by rw [h]) else .isFalse (by simp [h])
  | .error a, .error b => if h : a = b then .isTrue (by rw [h]) else .isFalse (by simp [h])
  | .ok _, .error _ => .isFalse (by simp)
  | .error _, .ok _ => .isFalse (by simp)

/-! ## Cookie data model (chromiumoxide `CookieParam`)

`CookieParam::builder()` (generated by `chromiumoxide_pdl`) accumulates
`Option` fields; every setter stores `Some(v)`, AND OVERWRITES any value a
previous call stored — this overwrite semantics is what decides claim C1.
`build()` fails only when `name` or `value` was never set. Fields of
`CookieParam` that `web2pdf` never touches (url, secure, priority, ...) are
carried as two representative unused fields `url` and `secure`. -/

inductive CookieSameSite where
  | strict
  | lax
deriving DecidableEq, Repr

structure CookieParamBuilder where
  name : Option String := none
  value : Option String := none
  url : Option String := none
  domain : Option String := none
  path : Option String := none
  secure : Option Bool := none
  http_only : Option Bool := none
  same_site : Option CookieSameSite := none
  expires : Option ℚ := none
  source_port : Option Int := none
deriving DecidableEq, Repr

/-- The built cookie: `name` and `value` are mandatory, the rest optional. -/
structure CookieParam where
  name : String
  value : String
  url : Option String
  domain : Option String
  path : Option String
  secure : Option Bool
  http_only : Option Bool
  same_site : Option CookieSameSite
  expires : Option ℚ
  source_port : Option Int
deriving DecidableEq, Repr

/-- `CookieParam::builder()`. -/
def CookieParamBuilder.empty : CookieParamBuilder := {}

/-- Builder setter `name(v)` — stores `Some`, overwriting. -/
def CookieParamBuilder.set_name (b : CookieParamBuilder) (v : String) : CookieParamBuilder :=
  { b with name := some v }

/-- Builder setter `value(v)`. -/
def CookieParamBuilder.set_value (b : CookieParamBuilder) (v : String) : CookieParamBuilder :=
  { b with value := some v }

/-- Builder setter `domain(v)`. -/
def CookieParamBuilder.set_domain (b : CookieParamBuilder) (v : String) : CookieParamBuilder :=
  { b with domain := some v }

/-- Builder setter `path(v)`. -/
def CookieParamBuilder.set_path (b : CookieParamBuilder) (v : String) : CookieParamBuilder :=
  { b with path := some v }

/-- Builder setter `http_only(v)` — like every generated setter it stores
`Some(v)` unconditionally, so a later call overwrites an earlier one. -/
def CookieParamBuilder.set_http_only (b : CookieParamBuilder) (v : Bool) : CookieParamBuilder :=
  { b with http_only := some v }

/-- Builder setter `same_site(v)`. -/
def CookieParamBuilder.set_same_site (b : CookieParamBuilder) (v : CookieSameSite) :
    CookieParamBuilder :=
  { b with same_site := some v }

/-- Builder setter `expires(v)` (`TimeSinceEpoch` is a newtype over `f64`). -/
def CookieParamBuilder.set_expires (b : CookieParamBuilder) (v : ℚ) : CookieParamBuilder :=
  { b with expires := some v }

/-- Builder setter `source_port(v)`. -/
def CookieParamBuilder.set_source_port (b : CookieParamBuilder) (v : Int) : CookieParamBuilder :=
  { b with source_port := some v }

/-- `CookieParamBuilder::build()`: `Err` when a mandatory field is missing. -/
def CookieParamBuilder.build (b : CookieParamBuilder) : Except String CookieParam :=
  match b.name, b.value with
  | some name, some value =>
      .ok ⟨name, value, b.url, b.domain, b.path, b.secure, b.http_only, b.same_site,
        b.expires, b.source_port⟩
  | none, _ => .error "Field name is mandatory."
  | _, none => .error "Field value is mandatory."

/-! ## `parse_cookie_file` (src/web2pdf_lib/src/util.rs, lines 38-91)

Errors are `Box<dyn Error>` displayed through `CookieFileParseError`, whose
`Display` text is `Error parsing Cookie file: ` followed by the message built
at the failure site; the model carries that display text as the `Except`
error. -/

/-- The per-line body of the loop in `parse_cookie_file` once a line survived
the comment check: split on tabs, demand exactly 7 fields, parse the expiry
as `f64`, fill the builder and build. -/
def parseCookieLine (line : String) (cookie_builder : CookieParamBuilder) :
    Except String CookieParam :=
  let cookie_args := splitTab line
  if cookie_args.length ≠ 7 then
    .error ("Error parsing Cookie file: Error parsing cookie line (Wrong number of arguments): '"
      ++ line ++ "'")
  else
    match parseF64 (cookie_args.getD 4 "") with
    | none =>
        .error ("Error parsing Cookie file: Error parsing cookie line: '" ++ line
          ++ "' Could not convert time: 'invalid float literal'")
    | some time_value =>
        (((((((cookie_builder.set_domain (cookie_args.getD 0 "")).set_same_site
          (if cookie_args.getD 1 "" = "TRUE" then CookieSameSite.strict
            else CookieSameSite.lax)).set_path
          (cookie_args.getD 2 "")).set_http_only
          (cookie_args.getD 3 "" = "TRUE")).set_expires
          time_value).set_name
          (cookie_args.getD 5 "")).set_value
          (cookie_args.getD 6 "")).build

/-- The `for line_unchanged in file_contents.lines()` loop, with the cookies
accumulated in reverse. -/
def parseCookieGo : List String → List CookieParam → Except String (List CookieParam)
  | [], cookies => .ok cookies.reverse
  | line_unchanged :: rest, cookies =>
    let cookie_builder := CookieParamBuilder.empty.set_source_port (-1)
    if strStartsWith line_unchanged "#HttpOnly_" then
      match parseCookieLine (strDrop line_unchanged 10) (cookie_builder.set_http_only true) with
      | .error e => .error e
      | .ok cookie => parseCookieGo rest (cookie :: cookies)
    else if strStartsWith line_unchanged "#" then
      parseCookieGo rest cookies
    else
      match parseCookieLine line_unchanged cookie_builder with
      | .error e => .error e
      | .ok cookie => parseCookieGo rest (cookie :: cookies)

/-- `parse_cookie_file` from src/web2pdf_lib/src/util.rs. -/
def parse_cookie_file (file_contents : String) : Except String (List CookieParam) :=
  parseCookieGo (rustLines file_contents) []

/-! ## Print options and mono-page sizing (src/web2pdf_lib/src/lib.rs, lines 202-234)

`PrintToPdfParams` carries the chromiumoxide print parameters used by this
repository; `f64` fields are `ℚ`. `web2pdf_save_pdf_mono` measures the page
(`layout_metrics`, an engine round-trip modelled by an explicit
`CssContentSize` argument) and then rewrites its `opts` purely before the
render call; that rewrite is `web2pdf_save_pdf_mono_opts`. -/

structure PrintToPdfParams where
  landscape : Option Bool := none
  display_header_footer : Option Bool := none
  print_background : Option Bool := none
  scale : Option ℚ := none
  paper_width : Option ℚ := none
  paper_height : Option ℚ := none
  margin_top : Option ℚ := none
  margin_bottom : Option ℚ := none
  margin_left : Option ℚ := none
  margin_right : Option ℚ := none
  page_ranges : Option String := none
  header_template : Option String := none
  footer_template : Option String := none
  prefer_css_page_size : Option Bool := none
  generate_tagged_pdf : Option Bool := none
deriving DecidableEq, Repr

/-- The measured content box `layout.css_content_size` (device pixels at
96 DPI). -/
structure CssContentSize where
  width : ℚ
  height : ℚ
deriving DecidableEq, Repr

/-- The option rewrite inside `web2pdf_save_pdf_mono`: clear `scale`, force
portrait, derive the paper size from the measured content box plus margins
(each margin falling back to 0.4 inches when unset), and force the page
range to `"1"`. -/
def web2pdf_save_pdf_mono_opts (opts : PrintToPdfParams) (css_content_size : CssContentSize) :
    PrintToPdfParams :=
  let opts1 := { opts with scale := none, landscape := some false }
  let opts2 := { opts1 with
    paper_height := some (css_content_size.height / 96
      + opts1.margin_top.getD 0.4 + opts1.margin_bottom.getD 0.4) }
  let opts3 := { opts2 with
    paper_width := some (css_content_size.width / 96
      + opts2.margin_left.getD 0.4 + opts2.margin_right.getD 0.4) }
  { opts3 with page_ranges := some "1" }

/-- The pure sizing function `compute_mono_dimensions` named by the spec
(§4.2): the `(paper_width, paper_height)` pair that
`web2pdf_save_pdf_mono_opts` installs, as a function of the measured content
size and the four optional margins. -/
def compute_mono_dimensions (w h : ℚ) (ml mr mt mb : Option ℚ) : ℚ × ℚ :=
  (w / 96 + ml.getD 0.4 + mr.getD 0.4, h / 96 + mt.getD 0.4 + mb.getD 0.4)

/-! ## The CLI surface and `pdf_tab`'s option construction (src/src/main.rs) -/

/-- The clap-parsed CLI fields that flow into `PrintToPdfParams` inside
`pdf_tab`. Default values are clap's `default_value_t` attributes: every
margin defaults to 0.3937 inches (1 cm), the flags to `false`, the optional
parameters to `None`. -/
structure Cli where
  mono_page : Bool := false
  screen_media_type : Bool := false
  landscape : Bool := false
  disable_print_background : Bool := false
  paper_width : Option ℚ := none
  paper_height : Option ℚ := none
  margin_top : ℚ := 0.3937
  margin_bottom : ℚ := 0.3937
  margin_left : ℚ := 0.3937
  margin_right : ℚ := 0.3937
  page_ranges : Option String := none
  display_header_footer : Bool := false
  header_template : Option String := none
  footer_template : Option String := none
  disable_prefer_css_page_size : Bool := false
  generate_tagged_pdf : Option Bool := none
  scale : Option ℚ := none
deriving Repr

/-- The `PrintToPdfParams` value `pdf_tab` builds from the CLI (src/src/main.rs,
lines 322-352): the unconditional builder chain sets landscape,
header/footer display, background, the four margins and the CSS-page-size
preference; the optional fields are set only when given on the CLI
(`generate_tagged_pdf` is never forwarded). -/
def pdf_tab_params (cli : Cli) : PrintToPdfParams :=
  let b : PrintToPdfParams :=
    { landscape := some cli.landscape,
      display_header_footer := some cli.display_header_footer,
      print_background := some (!cli.disable_print_background),
      margin_top := some cli.margin_top,
      margin_bottom := some cli.margin_bottom,
      margin_left := some cli.margin_left,
      margin_right := some cli.margin_right,
      prefer_css_page_size := some (!cli.disable_prefer_css_page_size) }
  let b := match cli.paper_width with
    | some width => { b with paper_width := some width }
    | none => b
  let b := match cli.paper_height with
    | some height => { b with paper_height := some height }
    | none => b
  let b := match cli.page_ranges with
    | some page_ranges => { b with page_ranges := some page_ranges }
    | none => b
  let b := match cli.header_template with
    | some header_template => { b with header_template := some header_template }
    | none => b
  let b := match cli.footer_template with
    | some footer_template => { b with footer_template := some footer_template }
    | none => b
  match cli.scale with
    | some scale => { b with scale := some scale }
    | none => b

/-! ## Work-item construction and the batch orchestrator (src/src/main.rs) -/

structure URLPathPair where
  url : String
  path : String
deriving DecidableEq, Repr

/-- `chunks_exact(2)`: consecutive (location, destination) pairs, a trailing
odd element dropped. -/
def pairUp : List String → List URLPathPair
  | url :: path :: rest => ⟨url, path⟩ :: pairUp rest
  | _ => []

/-- `Cli::replace_url_path_pairs`: an odd argument count prints an error and
calls `std::process::exit(1)` (modelled as `.error 1`); otherwise the flat
list is consumed two at a time. -/
def replace_url_path_pairs (raw_url_path_pairs : List String) :
    Except Nat (List URLPathPair) :=
  if raw_url_path_pairs.length % 2 ≠ 0 then .error 1
  else .ok (pairUp raw_url_path_pairs)

/-- The per-task result `main` observes from `pdf_tab`: the item index and
whether the conversion succeeded. -/
structure TaskOutcome where
  index : Nat
  success : Bool
deriving DecidableEq, Repr

/-- The fan-out in `main`: one spawned task per index `0..pairs.len()`,
task `i` succeeding exactly when its render (an engine round-trip, modelled
by the oracle `render`) succeeds. -/
def runTasks (n : Nat) (render : Nat → Bool) : List TaskOutcome :=
  (List.range n).map fun i => ⟨i, render i⟩

/-- The mutex-guarded counter `exit_code`: each completing task adds 1 when
it failed, in completion order. -/
def exitCounter (completed : List TaskOutcome) : Nat :=
  completed.foldl (fun exit_code o => if o.success then exit_code else exit_code + 1) 0

/-- What `main` does with the work-item list: either a startup exit (from
`replace_url_path_pairs`, before the browser is launched and before any task
is spawned) or the joined outcomes with the final exit value. -/
inductive MainResult where
  | startupExit (code : Nat)
  | finished (outcomes : List TaskOutcome) (exit_code : Nat)
deriving DecidableEq, Repr

/-- The orchestration skeleton of `main`, with the rendering engine
abstracted into the per-task success oracle `render`. The stored exit value
is completion-order independent (`exitCounter` of any permutation of the
outcomes, proved below), so it is recorded here in index order. -/
def mainModel (raw : List String) (render : Nat → Bool) : MainResult :=
  match replace_url_path_pairs raw with
  | .error code => .startupExit code
  | .ok pairs => .finished (runTasks pairs.length render)
      (exitCounter (runTasks pairs.length render))

/-! ## Derived descriptions of the cookie parser, for the claim statements -/

/-- The text the 7-field split is applied to: the line with the
`#HttpOnly_` marker stripped, other lines unchanged. -/
def lineBody (l : String) : String :=
  if strStartsWith l "#HttpOnly_" then strDrop l 10 else l

/-- A comment line: starts with `#` but not with the `#HttpOnly_` marker. -/
def isComment (l : String) : Bool :=
  !strStartsWith l "#HttpOnly_" && strStartsWith l "#"

/-- The builder a line starts from: `source_port(-1)`, plus `http_only(true)`
for a marker line. -/
def lineBuilder (l : String) : CookieParamBuilder :=
  if strStartsWith l "#HttpOnly_" then
    (CookieParamBuilder.empty.set_source_port (-1)).set_http_only true
  else CookieParamBuilder.empty.set_source_port (-1)

/-- A line body on which `parseCookieLine` fails: wrong tab-separated field
count, or an expiry field Rust's `f64` parser rejects. -/
def bodyOffends (body : String) : Bool :=
  ((splitTab body).length != 7) || (parseF64 ((splitTab body).getD 4 "")).isNone

/-- A line on which the whole parse aborts. -/
def lineOffends (l : String) : Bool :=
  !isComment l && bodyOffends (lineBody l)

/-- The error text `parse_cookie_file` produces for an offending line body. -/
def offenseMsg (body : String) : String :=
  if (splitTab body).length ≠ 7 then
    "Error parsing Cookie file: Error parsing cookie line (Wrong number of arguments): '"
      ++ body ++ "'"
  else
    "Error parsing Cookie file: Error parsing cookie line: '" ++ body
      ++ "' Could not convert time: 'invalid float literal'"

/-- The cookie record a well-formed line body produces from builder `b`. -/
def lineCookie (line : String) (b : CookieParamBuilder) : CookieParam :=
  let cookie_args := splitTab line
  { name := cookie_args.getD 5 "",
    value := cookie_args.getD 6 "",
    url := b.url,
    domain := some (cookie_args.getD 0 ""),
    path := some (cookie_args.getD 2 ""),
    secure := b.secure,
    http_only := some (cookie_args.getD 3 "" = "TRUE"),
    same_site := some (if cookie_args.getD 1 "" = "TRUE" then CookieSameSite.strict
      else CookieSameSite.lax),
    expires := some ((parseF64 (cookie_args.getD 4 "")).getD 0),
    source_port := b.source_port }

/-- The record one input line contributes: none for comments and (vacuously,
under the well-formedness hypothesis) for offending lines. -/
def cookieRecordOfLine (l : String) : Option CookieParam :=
  if isComment l then none
  else if lineOffends l then none
  else some (lineCookie (lineBody l) (lineBuilder l))

/-- All records of an input, in line order. -/
def cookieRecords (lines : List String) : List CookieParam :=
  lines.filterMap cookieRecordOfLine

theorem parseCookieLine_ok (line : String) (b : CookieParamBuilder)
    (h : bodyOffends line = false) :
    parseCookieLine line b = .ok (lineCookie line b) := by
  have h' := h
  simp only [bodyOffends, Bool.or_eq_false_iff, bne_eq_false_iff_eq,
    Option.isNone_eq_false_iff, Option.isSome_iff_exists] at h'
  obtain ⟨h7, v, hv⟩ := h'
  simp only [parseCookieLine, h7, ne_eq, not_true_eq_false, if_false, hv,
    lineCookie, CookieParamBuilder.set_domain, CookieParamBuilder.set_same_site,
    CookieParamBuilder.set_path, CookieParamBuilder.set_http_only,
    CookieParamBuilder.set_expires, CookieParamBuilder.set_name,
    CookieParamBuilder.set_value, CookieParamBuilder.build]
  simp [hv]

theorem parseCookieLine_err (line : String) (b : CookieParamBuilder)
    (h : bodyOffends line = true) :
    parseCookieLine line b = .error (offenseMsg line) := by
  simp only [bodyOffends, Bool.or_eq_true, bne_iff_ne, ne_eq,
    Option.isNone_iff_eq_none] at h
  by_cases h7 : (splitTab line).length = 7
  · have hnone : parseF64 ((splitTab line).getD 4 "") = none := by
      rcases h with h | h
      · exact absurd h7 h
      · exact h
    have hlen : ¬((splitTab line).length ≠ 7) := by simp [h7]
    simp only [parseCookieLine]
    rw [if_neg hlen, hnone]
    simp [offenseMsg, h7]
  · simp only [parseCookieLine]
    rw [if_pos h7]
    simp [offenseMsg, h7]

theorem parseCookieGo_ok (lines : List String)
    (h : ∀ l ∈ lines, lineOffends l = false) :
    ∀ acc, parseCookieGo lines acc = .ok (acc.reverse ++ cookieRecords lines) := by
  induction lines with
  | nil => intro acc; simp [parseCookieGo, cookieRecords]
  | cons l rest ih =>
    intro acc
    have hl : lineOffends l = false := h l (by simp)
    have hrest : ∀ x ∈ rest, lineOffends x = false := fun x hx => h x (by simp [hx])
    by_cases hH : strStartsWith l "#HttpOnly_"
    · have hcom : isComment l = false := by simp [isComment, hH]
      have hbody : bodyOffends (strDrop l 10) = false := by
        have := hl
        simp only [lineOffends, hcom, Bool.not_false, Bool.true_and, lineBody, hH,
          if_true] at this
        exact this
      have hrec : cookieRecordOfLine l =
          some (lineCookie (strDrop l 10)
            ((CookieParamBuilder.empty.set_source_port (-1)).set_http_only true)) := by
        simp [cookieRecordOfLine, hcom, hl, lineBody, lineBuilder, hH]
      simp only [parseCookieGo, hH, if_true]
      rw [parseCookieLine_ok _ _ hbody]
      refine (ih hrest _).trans ?_
      simp [cookieRecords, List.filterMap_cons, hrec]
    · by_cases hC : strStartsWith l "#"
      · have hcom : isComment l = true := by simp [isComment, hH, hC]
        simp only [parseCookieGo, hH, hC, Bool.false_eq_true, if_false, if_true]
        rw [ih hrest]
        simp [cookieRecords, List.filterMap_cons, cookieRecordOfLine, hcom]
      · have hcom : isComment l = false := by simp [isComment, hH, hC]
        have hbody : bodyOffends l = false := by
          have := hl
          simp only [lineOffends, hcom, Bool.not_false, Bool.true_and, lineBody, hH,
            Bool.false_eq_true, if_false] at this
          exact this
        have hrec : cookieRecordOfLine l =
            some (lineCookie l (CookieParamBuilder.empty.set_source_port (-1))) := by
          simp [cookieRecordOfLine, hcom, hl, lineBody, lineBuilder, hH]
        simp only [parseCookieGo, hH, hC, Bool.false_eq_true, if_false]
        rw [parseCookieLine_ok _ _ hbody]
        refine (ih hrest _).trans ?_
        simp [cookieRecords, List.filterMap_cons, hrec]

theorem parseCookieGo_err (lines : List String) (l : String)
    (h : lines.find? lineOffends = some l) :
    ∀ acc, parseCookieGo lines acc = .error (offenseMsg (lineBody l)) := by
  induction lines with
  | nil => intro acc; simp [List.find?] at h
  | cons a rest ih =>
    intro acc
    rw [List.find?_cons] at h
    by_cases ha : lineOffends a
    · rw [ha] at h
      simp only [Option.some.injEq] at h
      subst h
      have hcom : isComment a = false := by
        rcases hcom : isComment a with _ | _
        · rfl
        · exfalso
          rw [lineOffends, hcom] at ha
          simp at ha
      have hbody : bodyOffends (lineBody a) = true := by
        rw [lineOffends, hcom] at ha
        simpa using ha
      by_cases hH : strStartsWith a "#HttpOnly_"
      · have hbody' : bodyOffends (strDrop a 10) = true := by
          rw [lineBody, if_pos hH] at hbody
          exact hbody
        simp only [parseCookieGo, hH, if_true]
        rw [parseCookieLine_err _ _ hbody']
        simp [lineBody, hH]
      · have hC : strStartsWith a "#" = false := by
          rcases hc : strStartsWith a "#" with _ | _
          · rfl
          · exfalso
            rw [isComment, hc] at hcom
            simp [hH] at hcom
        have hbody' : bodyOffends a = true := by
          rw [lineBody, if_neg (by simp [hH])] at hbody
          exact hbody
        simp only [parseCookieGo, hH, hC, Bool.false_eq_true, if_false]
        rw [parseCookieLine_err _ _ hbody']
        simp [lineBody, hH]
    · rw [Bool.not_eq_true] at ha
      rw [ha] at h
      simp only at h
      by_cases hH : strStartsWith a "#HttpOnly_"
      · have hcom : isComment a = false := by simp [isComment, hH]
        have hbody : bodyOffends (strDrop a 10) = false := by
          have := ha
          simp only [lineOffends, hcom, Bool.not_false, Bool.true_and, lineBody, hH,
            if_true] at this
          exact this
        simp only [parseCookieGo, hH, if_true]
        rw [parseCookieLine_ok _ _ hbody]
        exact ih h _
      · by_cases hC : strStartsWith a "#"
        · simp only [parseCookieGo, hH, hC, Bool.false_eq_true, if_false, if_true]
          exact ih h acc
        · have hcom : isComment a = false := by simp [isComment, hH, hC]
          have hbody : bodyOffends a = false := by
            have := ha
            simp only [lineOffends, hcom, Bool.not_false, Bool.true_and, lineBody, hH,
              Bool.false_eq_true, if_false] at this
            exact this
          simp only [parseCookieGo, hH, hC, Bool.false_eq_true, if_false]
          rw [parseCookieLine_ok _ _ hbody]
          exact ih h _

/-! ## Helper lemmas about the orchestrator model -/

theorem exitCounter_fold (l : List TaskOutcome) : ∀ c : Nat,
    l.foldl (fun exit_code o => if o.success then exit_code else exit_code + 1) c
      = c + l.countP (fun o => !o.success) := by
  induction l with
  | nil => intro c; simp
  | cons o rest ih =>
    intro c
    by_cases hs : o.success
    · simp [hs, ih c, List.countP_cons]
    · have hs' : o.success = false := by
        revert hs
        cases o.success <;> simp
      simp only [List.foldl_cons, hs', Bool.false_eq_true, if_false]
      rw [ih (c + 1), List.countP_cons]
      simp only [hs', Bool.not_false, if_true]
      omega

theorem exitCounter_eq_countP (l : List TaskOutcome) :
    exitCounter l = l.countP (fun o => !o.success) := by
  simpa using exitCounter_fold l 0

theorem pairUp_length (n : Nat) : ∀ raw : List String,
    raw.length = 2 * n → (pairUp raw).length = n := by
  induction n with
  | zero =>
    intro raw h
    rcases raw with _ | ⟨a, tail⟩
    · simp [pairUp]
    · simp at h
  | succ n ih =>
    intro raw h
    rcases raw with _ | ⟨a, _ | ⟨b, rest⟩⟩
    · simp at h
    · simp at h
      omega
    · have hrest : rest.length = 2 * n := by
        simp only [List.length_cons] at h
        omega
      simp [pairUp, ih rest hrest]

theorem pairUp_get (i : Nat) : ∀ raw : List String, 2 * i + 1 < raw.length →
    ∃ u p, raw[2 * i]? = some u ∧ raw[2 * i + 1]? = some p ∧
      (pairUp raw)[i]? = some ⟨u, p⟩ := by
  induction i with
  | zero =>
    intro raw h
    rcases raw with _ | ⟨a, _ | ⟨b, rest⟩⟩
    · simp at h
    · simp at h
    · exact ⟨a, b, by simp, by simp, by simp [pairUp]⟩
  | succ i ih =>
    intro raw h
    rcases raw with _ | ⟨a, _ | ⟨b, rest⟩⟩
    · simp at h
    · simp at h
    · have h' : 2 * i + 1 < rest.length := by
        simp only [List.length_cons] at h
        omega
      obtain ⟨u, p, h1, h2, h3⟩ := ih rest h'
      have e1 : 2 * (i + 1) = 2 * i + 1 + 1 := by ring
      have e2 : 2 * (i + 1) + 1 = 2 * i + 1 + 1 + 1 := by ring
      refine ⟨u, p, ?_, ?_, ?_⟩
      · rw [e1, List.getElem?_cons_succ, List.getElem?_cons_succ]
        simpa using h1
      · rw [e2, List.getElem?_cons_succ, List.getElem?_cons_succ]
        simpa [e1] using h2
      · rw [show pairUp (a :: b :: rest) = ⟨a, b⟩ :: pairUp rest from rfl,
          List.getElem?_cons_succ]
        exact h3

theorem runTasks_get (n : Nat) (render : Nat → Bool) (i : Nat) (h : i < n) :
    (runTasks n render)[i]? = some ⟨i, render i⟩ := by
  simp [runTasks, List.getElem?_range, h]

/-! ## Claim theorems -/

/-- C1 (code evaluation at the failing input): the claim says a
`#HttpOnly_`-prefixed line yields `http_only = true` regardless of field 4,
i.e. `http_only` = (field 4 == TRUE) OR marker. In the code, the builder's
`http_only(true)` for the marker is later overwritten by the unconditional
`http_only(cookie_args[3].eq("TRUE"))` (every generated setter stores
`Some(v)`), so a marker line with field 4 `FALSE` parses with
`http_only = some false`. -/
theorem c1_httponly_marker_overwritten_by_field4 :
    parse_cookie_file "#HttpOnly_example.com\tTRUE\t/\tFALSE\t1700000000\tsid\tabc123" =
      .ok [{ name := "sid", value := "abc123", url := none,
             domain := some "example.com", path := some "/", secure := none,
             http_only := some false, same_site := some CookieSameSite.strict,
             expires := some 1700000000, source_port := some (-1) }] := by decide

/-- C2: in mono mode the computed paper width is the measured content width
divided by 96 plus the left and right margins (each defaulting to 0.4 inches
when unset), analogously for the height; the scale factor is cleared,
landscape is forced false and the page range is forced to "1"; measured
content 960×1200 px with all margins defaulted yields (10.8, 13.3) inches. -/
theorem c2_mono_dimensions_formula :
    (∀ (opts : PrintToPdfParams) (css : CssContentSize),
      (web2pdf_save_pdf_mono_opts opts css).paper_width =
          some (css.width / 96 + opts.margin_left.getD 0.4 + opts.margin_right.getD 0.4) ∧
      (web2pdf_save_pdf_mono_opts opts css).paper_height =
          some (css.height / 96 + opts.margin_top.getD 0.4 + opts.margin_bottom.getD 0.4) ∧
      (web2pdf_save_pdf_mono_opts opts css).scale = none ∧
      (web2pdf_save_pdf_mono_opts opts css).landscape = some false ∧
      (web2pdf_save_pdf_mono_opts opts css).page_ranges = some "1") ∧
    (web2pdf_save_pdf_mono_opts {} ⟨960, 1200⟩).paper_width = some 10.8 ∧
    (web2pdf_save_pdf_mono_opts {} ⟨960, 1200⟩).paper_height = some 13.3 := by
  refine ⟨fun opts css => ⟨rfl, rfl, rfl, rfl, rfl⟩, ?_, ?_⟩
  · show some ((960 : ℚ) / 96 + (0.4 : ℚ) + (0.4 : ℚ)) = some 10.8
    norm_num
  · show some ((1200 : ℚ) / 96 + (0.4 : ℚ) + (0.4 : ℚ)) = some 13.3
    norm_num

/-- C8: the mono sizing is a pure function of its inputs (equal inputs give
equal outputs), it is the function `web2pdf_save_pdf_mono_opts` installs as
the paper size, and each output component is monotone in the corresponding
content dimension and in each of its margins. -/
theorem c8_compute_mono_dimensions_pure_monotone :
    (∀ (opts : PrintToPdfParams) (css : CssContentSize),
      (web2pdf_save_pdf_mono_opts opts css).paper_width =
        some (compute_mono_dimensions css.width css.height opts.margin_left opts.margin_right
          opts.margin_top opts.margin_bottom).1 ∧
      (web2pdf_save_pdf_mono_opts opts css).paper_height =
        some (compute_mono_dimensions css.width css.height opts.margin_left opts.margin_right
          opts.margin_top opts.margin_bottom).2) ∧
    (∀ w h ml mr mt mb w2 h2 ml2 mr2 mt2 mb2, w = w2 → h = h2 → ml = ml2 → mr = mr2 →
      mt = mt2 → mb = mb2 →
      compute_mono_dimensions w h ml mr mt mb = compute_mono_dimensions w2 h2 ml2 mr2 mt2 mb2) ∧
    (∀ (w w2 h : ℚ) (ml mr mt mb : Option ℚ), w ≤ w2 →
      (compute_mono_dimensions w h ml mr mt mb).1 ≤
        (compute_mono_dimensions w2 h ml mr mt mb).1) ∧
    (∀ (w h h2 : ℚ) (ml mr mt mb : Option ℚ), h ≤ h2 →
      (compute_mono_dimensions w h ml mr mt mb).2 ≤
        (compute_mono_dimensions w h2 ml mr mt mb).2) ∧
    (∀ (w h ml ml2 : ℚ) (mr mt mb : Option ℚ), ml ≤ ml2 →
      (compute_mono_dimensions w h (some ml) mr mt mb).1 ≤
        (compute_mono_dimensions w h (some ml2) mr mt mb).1) ∧
    (∀ (w h mr mr2 : ℚ) (ml mt mb : Option ℚ), mr ≤ mr2 →
      (compute_mono_dimensions w h ml (some mr) mt mb).1 ≤
        (compute_mono_dimensions w h ml (some mr2) mt mb).1) ∧
    (∀ (w h mt mt2 : ℚ) (ml mr mb : Option ℚ), mt ≤ mt2 →
      (compute_mono_dimensions w h ml mr (some mt) mb).2 ≤
        (compute_mono_dimensions w h ml mr (some mt2) mb).2) ∧
    (∀ (w h mb mb2 : ℚ) (ml mr mt : Option ℚ), mb ≤ mb2 →
      (compute_mono_dimensions w h ml mr mt (some mb)).2 ≤
        (compute_mono_dimensions w h ml mr mt (some mb2)).2) := by
  refine ⟨fun opts css => ⟨rfl, rfl⟩, ?_, ?_, ?_, ?_, ?_, ?_, ?_⟩
  · intro w h ml mr mt mb w2 h2 ml2 mr2 mt2 mb2 hw hh hml hmr hmt hmb
    rw [hw, hh, hml, hmr, hmt, hmb]
  · intro w w2 h ml mr mt mb hw
    simp only [compute_mono_dimensions]
    gcongr
  · intro w h h2 ml mr mt mb hh
    simp only [compute_mono_dimensions]
    gcongr
  · intro w h ml ml2 mr mt mb hml
    simp only [compute_mono_dimensions, Option.getD_some]
    gcongr
  · intro w h mr mr2 ml mt mb hmr
    simp only [compute_mono_dimensions, Option.getD_some]
    gcongr
  · intro w h mt mt2 ml mr mb hmt
    simp only [compute_mono_dimensions, Option.getD_some]
    gcongr
  · intro w h mb mb2 ml mr mt hmb
    simp only [compute_mono_dimensions, Option.getD_some]
    gcongr

/-- C8 witness: the monotonicity hypotheses discharged at concrete inputs. -/
theorem c8_compute_mono_dimensions_pure_monotone_witness :
    (0.4 : ℚ) ≤ 0.5 ∧
    (compute_mono_dimensions 960 1200 (some 0.4) none none none).1 ≤
      (compute_mono_dimensions 960 1200 (some 0.5) none none none).1 :=
  ⟨by norm_num,
    (c8_compute_mono_dimensions_pure_monotone.2.2.2.2.1) 960 1200 0.4 0.5 none none none
      (by norm_num)⟩

/-- C9: every print-options value `pdf_tab` builds from the CLI has all four
margins set (and the CLI defaults each margin to 0.3937 inches), so on the
CLI path the 0.4-inch per-margin fallback inside `web2pdf_save_pdf_mono` is
never used: the mono paper dimensions are always the CLI-supplied margins
plus the scaled content size. -/
theorem c9_cli_margins_always_set :
    (∀ cli : Cli,
      (pdf_tab_params cli).margin_top = some cli.margin_top ∧
      (pdf_tab_params cli).margin_bottom = some cli.margin_bottom ∧
      (pdf_tab_params cli).margin_left = some cli.margin_left ∧
      (pdf_tab_params cli).margin_right = some cli.margin_right) ∧
    (({} : Cli).margin_top = 0.3937 ∧ ({} : Cli).margin_bottom = 0.3937 ∧
      ({} : Cli).margin_left = 0.3937 ∧ ({} : Cli).margin_right = 0.3937) ∧
    (∀ (cli : Cli) (css : CssContentSize),
      (web2pdf_save_pdf_mono_opts (pdf_tab_params cli) css).paper_width =
        some (css.width / 96 + cli.margin_left + cli.margin_right) ∧
      (web2pdf_save_pdf_mono_opts (pdf_tab_params cli) css).paper_height =
        some (css.height / 96 + cli.margin_top + cli.margin_bottom)) := by
  have hm : ∀ cli : Cli,
      (pdf_tab_params cli).margin_top = some cli.margin_top ∧
      (pdf_tab_params cli).margin_bottom = some cli.margin_bottom ∧
      (pdf_tab_params cli).margin_left = some cli.margin_left ∧
      (pdf_tab_params cli).margin_right = some cli.margin_right := by
    intro cli
    obtain ⟨mono, smt, land, dpb, pw, ph, mt, mb, ml, mr, pr, dhf, ht, ft, dpc, gtp, sc⟩ := cli
    cases pw <;> cases ph <;> cases pr <;> cases ht <;> cases ft <;> cases sc <;>
      exact ⟨rfl, rfl, rfl, rfl⟩
  refine ⟨hm, ⟨rfl, rfl, rfl, rfl⟩, ?_⟩
  intro cli css
  obtain ⟨hmt, hmb, hml, hmr⟩ := hm cli
  constructor
  · show some (css.width / 96 + (pdf_tab_params cli).margin_left.getD 0.4
      + (pdf_tab_params cli).margin_right.getD 0.4) = _
    rw [hml, hmr]
    rfl
  · show some (css.height / 96 + (pdf_tab_params cli).margin_top.getD 0.4
      + (pdf_tab_params cli).margin_bottom.getD 0.4) = _
    rw [hmt, hmb]
    rfl

/-- C5: for every even-length work-item list the orchestrator produces
exactly one task outcome per (location, destination) pair (outcome `i`
belonging to pair `i`), the final exit value equals the number of failed
outcomes, is independent of the order in which tasks complete (any
permutation of the outcomes fed to the mutex-guarded counter yields the
same value), and never exceeds the number of work items. -/
theorem c5_orchestrator_counts_failures (raw : List String) (render : Nat → Bool)
    (heven : raw.length % 2 = 0) :
    ∃ outcomes exit_code, mainModel raw render = .finished outcomes exit_code ∧
      outcomes.length = (pairUp raw).length ∧
      (∀ i, i < (pairUp raw).length → outcomes[i]? = some ⟨i, render i⟩) ∧
      exit_code = outcomes.countP (fun o => !o.success) ∧
      (∀ completed : List TaskOutcome, completed.Perm outcomes →
        exitCounter completed = exit_code) ∧
      exit_code ≤ (pairUp raw).length := by
  have hrep : replace_url_path_pairs raw = .ok (pairUp raw) := by
    simp [replace_url_path_pairs, heven]
  refine ⟨runTasks (pairUp raw).length render,
    exitCounter (runTasks (pairUp raw).length render), ?_, ?_, ?_, ?_, ?_, ?_⟩
  · simp [mainModel, hrep]
  · simp [runTasks]
  · intro i hi
    exact runTasks_get _ _ _ hi
  · exact exitCounter_eq_countP _
  · intro completed hperm
    rw [exitCounter_eq_countP, exitCounter_eq_countP]
    exact hperm.countP_eq _
  · rw [exitCounter_eq_countP]
    exact le_trans (List.countP_le_length _) (by simp [runTasks])

/-- C5 witness: four work items, the second task failing. -/
theorem c5_orchestrator_counts_failures_witness :
    (["https://a.test", "/tmp/a.pdf", "https://b.test", "/tmp/b.pdf"].length % 2 = 0) ∧
    (∃ outcomes exit_code,
      mainModel ["https://a.test", "/tmp/a.pdf", "https://b.test", "/tmp/b.pdf"]
        (fun i => i == 0) = .finished outcomes exit_code ∧
      outcomes.length =
        (pairUp ["https://a.test", "/tmp/a.pdf", "https://b.test", "/tmp/b.pdf"]).length ∧
      (∀ i, i < (pairUp ["https://a.test", "/tmp/a.pdf", "https://b.test", "/tmp/b.pdf"]).length →
        outcomes[i]? = some ⟨i, i == 0⟩) ∧
      exit_code = outcomes.countP (fun o => !o.success) ∧
      (∀ completed : List TaskOutcome, completed.Perm outcomes →
        exitCounter completed = exit_code) ∧
      exit_code ≤
        (pairUp ["https://a.test", "/tmp/a.pdf", "https://b.test", "/tmp/b.pdf"]).length) :=
  ⟨by decide,
    c5_orchestrator_counts_failures ["https://a.test", "/tmp/a.pdf", "https://b.test", "/tmp/b.pdf"]
      (fun i => i == 0) (by decide)⟩

/-- C6: an odd-length flat argument list makes the process exit with the
fixed nonzero status 1 before any task outcome exists (in the model, before
`mainModel` ever reaches the `finished` state that would touch the rendering
engine); an even-length list of length `2 * n` yields exactly `n` work
items, item `i` pairing element `2 * i` as location with element `2 * i + 1`
as destination, in order. -/
theorem c6_odd_fatal_even_pairing (raw : List String) (render : Nat → Bool) :
    (raw.length % 2 = 1 →
      mainModel raw render = .startupExit 1 ∧ (1 : Nat) ≠ 0 ∧
      ∀ outcomes exit_code, mainModel raw render ≠ .finished outcomes exit_code) ∧
    (∀ n, raw.length = 2 * n →
      (pairUp raw).length = n ∧
      ∀ i, i < n → ∃ u p, raw[2 * i]? = some u ∧ raw[2 * i + 1]? = some p ∧
        (pairUp raw)[i]? = some ⟨u, p⟩) := by
  constructor
  · intro hodd
    have hrep : replace_url_path_pairs raw = .error 1 := by
      simp [replace_url_path_pairs, hodd]
    refine ⟨by simp [mainModel, hrep], by omega, ?_⟩
    intro outcomes exit_code
    simp [mainModel, hrep]
  · intro n hn
    refine ⟨pairUp_length n raw hn, ?_⟩
    intro i hi
    exact pairUp_get i raw (by omega)

/-- C6 witness: the odd case at a 1-element list, the even case at a
2-element list. -/
theorem c6_odd_fatal_even_pairing_witness :
    mainModel ["https://a.test"] (fun _ => true) = .startupExit 1 ∧
    (pairUp ["https://a.test", "/tmp/a.pdf"]).length = 1 :=
  ⟨((c6_odd_fatal_even_pairing ["https://a.test"] (fun _ => true)).1 (by decide)).1,
    ((c6_odd_fatal_even_pairing ["https://a.test", "/tmp/a.pdf"] (fun _ => true)).2 1
      (by decide)).1⟩

/-- C3: cookie parsing is all-or-nothing — whenever some non-comment line
(after marker stripping) does not split into exactly 7 tab-separated fields,
or has an expiry field 5 that does not parse as a float, the parse returns
an error whose message embeds the offending line (and, in the expiry case,
Rust's conversion-error text "invalid float literal"), and no cookie list,
partial or otherwise, is returned. -/
theorem c3_parse_all_or_nothing (s : String)
    (h : (rustLines s).any lineOffends = true) :
    ∃ l ∈ rustLines s, lineOffends l = true ∧
      parse_cookie_file s = .error (offenseMsg (lineBody l)) ∧
      (∃ before after, offenseMsg (lineBody l) = before ++ lineBody l ++ after) ∧
      ((splitTab (lineBody l)).length = 7 →
        offenseMsg (lineBody l) = "Error parsing Cookie file: Error parsing cookie line: '"
          ++ lineBody l ++ "' Could not convert time: 'invalid float literal'") ∧
      ∀ cs, parse_cookie_file s ≠ .ok cs := by
  have hex : ∃ l, (rustLines s).find? lineOffends = some l := by
    rw [← Option.isSome_iff_exists, List.find?_isSome]
    exact List.any_eq_true.mp h
  obtain ⟨l, hfind⟩ := hex
  have herr : parse_cookie_file s = .error (offenseMsg (lineBody l)) :=
    parseCookieGo_err _ _ hfind []
  refine ⟨l, List.mem_of_find?_eq_some hfind, List.find?_some hfind, herr, ?_, ?_, ?_⟩
  · by_cases h7 : (splitTab (lineBody l)).length = 7
    · refine ⟨"Error parsing Cookie file: Error parsing cookie line: '",
        "' Could not convert time: 'invalid float literal'", ?_⟩
      simp [offenseMsg, h7]
    · refine ⟨"Error parsing Cookie file: Error parsing cookie line (Wrong number of arguments): '",
        "'", ?_⟩
      simp [offenseMsg, h7]
  · intro h7
    simp [offenseMsg, h7]
  · intro cs hcs
    rw [herr] at hcs
    exact Except.noConfusion hcs

/-- C3 witness: a single line with one field offends and aborts the parse. -/
theorem c3_parse_all_or_nothing_witness :
    ((rustLines "bad").any lineOffends = true) ∧
    (∃ l ∈ rustLines "bad", lineOffends l = true ∧
      parse_cookie_file "bad" = .error (offenseMsg (lineBody l)) ∧
      (∃ before after, offenseMsg (lineBody l) = before ++ lineBody l ++ after) ∧
      ((splitTab (lineBody l)).length = 7 →
        offenseMsg (lineBody l) = "Error parsing Cookie file: Error parsing cookie line: '"
          ++ lineBody l ++ "' Could not convert time: 'invalid float literal'") ∧
      ∀ cs, parse_cookie_file "bad" ≠ .ok cs) :=
  ⟨by decide, c3_parse_all_or_nothing "bad" (by decide)⟩

/-- C4 counterexample: the claim says an entirely blank line is tolerated as
a skip, but the code splits the empty line into one field and aborts: the
input consisting of one blank line fails to parse. -/
theorem c4_blank_line_counterexample :
    parse_cookie_file "\n" =
      .error "Error parsing Cookie file: Error parsing cookie line (Wrong number of arguments): ''"
    := by decide

/-- C4 amended: an entirely blank line is NOT tolerated — any input one of
whose lines is blank fails to parse (the blank line is a malformed 1-field
line), matching the source-behavior note in spec §9. -/
theorem c4_blank_line_rejected (s : String) (h : "" ∈ rustLines s) :
    ∃ e, parse_cookie_file s = .error e ∧ ∀ cs, parse_cookie_file s ≠ .ok cs := by
  have hany : (rustLines s).any lineOffends = true := by
    rw [List.any_eq_true]
    exact ⟨"", h, by decide⟩
  have hex : ∃ l, (rustLines s).find? lineOffends = some l := by
    rw [← Option.isSome_iff_exists, List.find?_isSome]
    exact List.any_eq_true.mp hany
  obtain ⟨l, hfind⟩ := hex
  have herr := parseCookieGo_err _ _ hfind []
  refine ⟨offenseMsg (lineBody l), herr, ?_⟩
  intro cs hcs
  rw [show parse_cookie_file s = _ from herr] at hcs
  exact Except.noConfusion hcs

/-- C4 witness: the input consisting of one blank line. -/
theorem c4_blank_line_rejected_witness :
    ("" ∈ rustLines "\n") ∧
    (∃ e, parse_cookie_file "\n" = .error e ∧ ∀ cs, parse_cookie_file "\n" ≠ .ok cs) :=
  ⟨by decide, c4_blank_line_rejected "\n" (by decide)⟩

/-- C7: for a well-formed cookie file the parsed records appear in input
line order (comments and skipped lines removed, as the order-preserving
`filterMap` over the input lines), each record maps `same_site` to Strict
exactly when field 2 is the literal "TRUE" (else Lax) and takes `name` and
`value` verbatim from fields 6 and 7; the scenario line
`example.com\tTRUE\t/\tFALSE\t1700000000\tsid\tabc123` parses to the single
expected record. -/
theorem c7_wellformed_field_mapping (s : String)
    (h : ∀ l ∈ rustLines s, lineOffends l = false) :
    parse_cookie_file s = .ok (cookieRecords (rustLines s)) ∧
    (∀ l c, cookieRecordOfLine l = some c →
      (c.same_site = some CookieSameSite.strict ↔ (splitTab (lineBody l)).getD 1 "" = "TRUE") ∧
      c.name = (splitTab (lineBody l)).getD 5 "" ∧
      c.value = (splitTab (lineBody l)).getD 6 "") ∧
    parse_cookie_file "example.com\tTRUE\t/\tFALSE\t1700000000\tsid\tabc123" =
      .ok [{ name := "sid", value := "abc123", url := none,
             domain := some "example.com", path := some "/", secure := none,
             http_only := some false, same_site := some CookieSameSite.strict,
             expires := some 1700000000, source_port := some (-1) }] := by
  refine ⟨by simpa using parseCookieGo_ok (rustLines s) h [], ?_, by decide⟩
  intro l c hc
  by_cases h1 : isComment l
  · simp [cookieRecordOfLine, h1] at hc
  · by_cases h2 : lineOffends l
    · simp [cookieRecordOfLine, h1, h2] at hc
    · have hc' : lineCookie (lineBody l) (lineBuilder l) = c := by
        simpa [cookieRecordOfLine, h1, h2] using hc
      subst hc'
      refine ⟨?_, rfl, rfl⟩
      by_cases ht : (splitTab (lineBody l)).getD 1 "" = "TRUE"
      · simp [lineCookie, ht]
      · simp [lineCookie, ht]

/-- C7 witness: the scenario line is well formed. -/
theorem c7_wellformed_field_mapping_witness :
    (∀ l ∈ rustLines "example.com\tTRUE\t/\tFALSE\t1700000000\tsid\tabc123",
      lineOffends l = false) ∧
    parse_cookie_file "example.com\tTRUE\t/\tFALSE\t1700000000\tsid\tabc123" =
      .ok (cookieRecords (rustLines "example.com\tTRUE\t/\tFALSE\t1700000000\tsid\tabc123")) :=
  ⟨by decide,
    (c7_wellformed_field_mapping "example.com\tTRUE\t/\tFALSE\t1700000000\tsid\tabc123"
      (by decide)).1⟩

/-- C10: the empty input parses to `Ok` with the empty cookie list, and so
does any input all of whose lines are plain comments (start with `#` but not
with the `#HttpOnly_` marker). -/
theorem c10_empty_and_comments_ok (s : String)
    (h : ∀ l ∈ rustLines s, strStartsWith l "#" = true ∧ strStartsWith l "#HttpOnly_" = false) :
    parse_cookie_file "" = .ok [] ∧ parse_cookie_file s = .ok [] := by
  refine ⟨by decide, ?_⟩
  have hoff : ∀ l ∈ rustLines s, lineOffends l = false := by
    intro l hl
    obtain ⟨h1, h2⟩ := h l hl
    simp [lineOffends, isComment, h1, h2]
  have hgo := parseCookieGo_ok (rustLines s) hoff []
  have hrec : cookieRecords (rustLines s) = [] := by
    rw [cookieRecords, List.filterMap_eq_nil_iff]
    intro l hl
    obtain ⟨h1, h2⟩ := h l hl
    simp [cookieRecordOfLine, isComment, h1, h2]
  simpa [hrec] using hgo

/-- C10 witness: two comment lines. -/
theorem c10_empty_and_comments_ok_witness :
    (∀ l ∈ rustLines "# Netscape HTTP Cookie File\n# comment",
      strStartsWith l "#" = true ∧ strStartsWith l "#HttpOnly_" = false) ∧
    (parse_cookie_file "" = .ok [] ∧
      parse_cookie_file "# Netscape HTTP Cookie File\n# comment" = .ok []) :=
  ⟨by decide, c10_empty_and_comments_ok "# Netscape HTTP Cookie File\n# comment" (by decide)⟩
